import Mathlib

/-!
# applied-go-programming: the two introductory programs

A shallow embedding of

* `src/01-fundamentals/01-basic-program-structure/hello-system.go` (the environment reporter) and
* `src/01-fundamentals/02-variables-and-types/data-collector.go` (the variables-and-types demo),

together with the fragment of the Go standard library the two programs call: `strconv.Itoa`
and `strconv.Atoi` (after `strconv/itoa.go` and `strconv/atoi.go`), the `fmt` verbs
`%v %T %d %s` (after `fmt/print.go` and `fmt/format.go`), the layout of `float64` values
(after `strconv/ftoa.go`; the shortest digit string is specified by search, not by the
library's algorithm), conversions between `int` and `float64`, and `unsafe.Sizeof`.

Conventions.

* A Go `string` is a Lean `String`; where the library looks at bytes, the UTF-8 encoding is used.
* A Go `int` is a Lean `Int`; the platform word size `w` (32 or 64) is an explicit parameter
  wherever the width matters.
* Standard output is the list of the writes made so far, one per call of a printing function;
  the text on the terminal is their concatenation. A statement that prints maps the output
  before it to the output after it.
* A function returns `none` where the model stops short: a format verb outside `%v %T %d %s`,
  a constant that its type cannot hold, a conversion the Go specification leaves open.
-/

namespace GoDemo

/-! ## Strings as bytes -/

/-- The bytes of a Go string (its UTF-8 encoding), as numbers below 256. -/
def bytes (s : String) : List Nat :=
  (s.data.flatMap String.utf8EncodeChar).map UInt8.toNat

/-- Go `s[lo:hi]` for a string of one-byte characters. -/
def strSlice (s : String) (lo hi : Nat) : List Char :=
  (s.data.drop lo).take (hi - lo)

/-- Go `s[k]` for a string of one-byte characters. -/
def strAt (s : String) (k : Nat) : Char :=
  s.data.getD k '0'

/-! ## strconv: formatting integers (`itoa.go`) -/

/-- The constant `nSmalls` of `strconv`. -/
def nSmalls : Nat := 100

/-- The constant `smallsString` of `strconv`: the two-digit numerals 00 to 99. -/
def smallsString : String :=
  "00010203040506070809" ++
  "10111213141516171819" ++
  "20212223242526272829" ++
  "30313233343536373839" ++
  "40414243444546474849" ++
  "50515253545556575859" ++
  "60616263646566676869" ++
  "70717273747576777879" ++
  "80818283848586878889" ++
  "90919293949596979899"

/-- The constant `digits` of `strconv`. -/
def digits : String := "0123456789abcdefghijklmnopqrstuvwxyz"

/-- The function `small` of `strconv`: the numeral of `0 ≤ i < nSmalls`. -/
def small (i : Nat) : List Char :=
  if i < 10 then strSlice digits i (i + 1)
  else strSlice smallsString (i * 2) (i * 2 + 2)

/-- The loop `for us >= 100` of `formatBits` in base 10: two digits are written in front of
`a` per round. `fuel` bounds the number of rounds (the buffer of `formatBits` has 65 bytes). -/
def formatBitsLoop : Nat → Nat → List Char → Nat × List Char
  | 0, us, a => (us, a)
  | fuel + 1, us, a =>
    if us ≥ 100 then
      let is := us % 100 * 2
      formatBitsLoop fuel (us / 100) (strAt smallsString (is + 0) :: strAt smallsString (is + 1) :: a)
    else (us, a)

/-- The loop `for j := 4; j > 0; j--` inside the 32-bit path of `formatBits`, for `j` rounds:
two digits are written in front of `a` per round. -/
def formatBitsPairs : Nat → Nat → List Char → Nat × List Char
  | 0, us, a => (us, a)
  | j + 1, us, a =>
    let is := us % 100 * 2
    formatBitsPairs j (us / 100) (strAt smallsString (is + 0) :: strAt smallsString (is + 1) :: a)

/-- The loop `for u >= 1e9` that `formatBits` runs first where `host32bit` holds: nine digits
are written in front of `a` per round, so that the rest fits a 32-bit `uint`. `fuel` bounds
the number of rounds (the buffer of `formatBits` has 65 bytes). -/
def formatBitsHost32 : Nat → Nat → List Char → Nat × List Char
  | 0, u, a => (u, a)
  | fuel + 1, u, a =>
    if u ≥ 1000000000 then
      let q := u / 1000000000
      let us := (u - q * 1000000000) % 2 ^ 32
      let r := formatBitsPairs 4 us a
      formatBitsHost32 fuel q (strAt smallsString (r.1 * 2 + 1) :: r.2)
    else (u, a)

/-- The branch `base == 10` of `formatBits`: the digits of `u`. The constant `host32bit` is
`w = 32` for the word size `w`, and `us := uint(u)` cuts `u` to `w` bits. -/
def formatBitsBase10 (w : Nat) (u : Nat) : List Char :=
  let r0 := if w = 32 then formatBitsHost32 7 u [] else (u, [])
  let r := formatBitsLoop 32 (r0.1 % 2 ^ w) r0.2
  let is := r.1 * 2
  let a := strAt smallsString (is + 1) :: r.2
  if r.1 ≥ 10 then strAt smallsString is :: a else a

/-- The function `formatBits(nil, u, 10, neg, false)`: `u` is the `uint64` argument, negated
first when `neg` holds; the sign is written last, in front of the digits. -/
def formatBits (w : Nat) (u : Nat) (neg : Bool) : List Char :=
  let u := if neg then (2 ^ 64 - u) % 2 ^ 64 else u
  let a := formatBitsBase10 w u
  if neg then '-' :: a else a

/-- Go `uint64(i)` for an `int64` value `i`. -/
def uint64 (i : Int) : Nat := (i % 2 ^ 64).toNat

/-- The function `strconv.FormatInt(i, 10)` on a platform with word size `w`. -/
def FormatInt (w : Nat) (i : Int) : String :=
  if 0 ≤ i ∧ i < nSmalls then String.mk (small i.toNat)
  else String.mk (formatBits w (uint64 i) (decide (i < 0)))

/-- The function `strconv.Itoa`: `FormatInt(int64(i), 10)`. -/
def Itoa (w : Nat) (i : Int) : String := FormatInt w i

/-! ## strconv: parsing integers (`atoi.go`) -/

/-- The two errors a `*NumError` of `strconv` wraps. -/
inductive NumError where
  | ErrSyntax
  | ErrRange
  deriving DecidableEq, Repr

/-- The constant `maxUint64`. -/
def maxUint64 : Nat := 2 ^ 64 - 1

/-- The digit loop of `ParseUint(s, 10, 0)` on the bytes still to read, with `n` read so far.
A byte that is no decimal digit is a syntax error (a letter is a digit `≥ 10 = base`). -/
def parseUintLoop (maxVal : Nat) : List Nat → Nat → Nat × Option NumError
  | [], n => (n, none)
  | c :: cs, n =>
    if 48 ≤ c ∧ c ≤ 57 then
      let d := c - 48
      if n ≥ maxUint64 / 10 + 1 then (maxVal, some NumError.ErrRange)
      else
        let n := n * 10
        let n1 := (n + d) % 2 ^ 64
        if n1 < n ∨ n1 > maxVal then (maxVal, some NumError.ErrRange)
        else parseUintLoop maxVal cs n1
    else (0, some NumError.ErrSyntax)

/-- The function `strconv.ParseUint(s, 10, 0)` on the bytes of `s`; `w` is `IntSize`. -/
def ParseUint (w : Nat) (s : List Nat) : Nat × Option NumError :=
  if s = [] then (0, some NumError.ErrSyntax)
  else parseUintLoop (2 ^ w - 1) s 0

/-- The function `strconv.ParseInt(s, 10, 0)` on the bytes of `s`; `w` is `IntSize`. -/
def ParseInt (w : Nat) (s : List Nat) : Int × Option NumError :=
  if s = [] then (0, some NumError.ErrSyntax)
  else
    let neg : Bool := s.head? = some 45
    let s1 := if s.head? = some 43 ∨ s.head? = some 45 then s.tail else s
    match ParseUint w s1 with
    | (_, some NumError.ErrSyntax) => (0, some NumError.ErrSyntax)
    | (un, _) =>
      let cutoff : Nat := 2 ^ (w - 1)
      if ¬ neg ∧ un ≥ cutoff then ((cutoff : Int) - 1, some NumError.ErrRange)
      else if neg ∧ un > cutoff then (-(cutoff : Int), some NumError.ErrRange)
      else (if neg then -(un : Int) else (un : Int), none)

/-- The digit loop of the fast path of `Atoi`: `none` when a byte is no decimal digit
(`ch -= '0'` on a byte wraps modulo 256). -/
def atoiLoop : List Nat → Int → Option Int
  | [], n => some n
  | ch :: cs, n =>
    let ch := (ch + 256 - 48) % 256
    if ch > 9 then none else atoiLoop cs (n * 10 + ch)

/-- Go `int(x)` for an `int64` value `x`, where `int` has `w` bits. -/
def toInt (w : Nat) (x : Int) : Int :=
  (x + 2 ^ (w - 1)) % 2 ^ w - 2 ^ (w - 1)

/-- The function `strconv.Atoi`; `w` is `intSize`. The result is the pair `(int, error)`,
`none` being the nil error. -/
def Atoi (w : Nat) (s : String) : Int × Option NumError :=
  let s0 := bytes s
  let sLen := s0.length
  if (w = 32 ∧ (0 < sLen ∧ sLen < 10)) ∨ (w = 64 ∧ (0 < sLen ∧ sLen < 19)) then
    let signed : Bool := s0.head? = some 45 ∨ s0.head? = some 43
    let s1 := if signed then s0.tail else s0
    if signed ∧ s1.length < 1 then (0, some NumError.ErrSyntax)
    else
      match atoiLoop s1 0 with
      | none => (0, some NumError.ErrSyntax)
      | some n => (if s0.head? = some 45 then -n else n, none)
  else
    let r := ParseInt w s0
    (toInt w r.1, r.2)

/-! ## float64: finite IEEE 754 binary64 values, in exact integer arithmetic -/

/-- A finite `float64`: the value `(-1)^neg * mant * 2^exp`. Canonical forms are zero
(`mant = 0`, `exp = 0`), normal (`2^52 ≤ mant < 2^53`) and subnormal (`exp = -1074`). -/
structure Float64 where
  neg : Bool
  mant : Nat
  exp : Int
  deriving DecidableEq, Repr

/-- Number of binary digits of `n`, by halving (`fuel` rounds). -/
def bitLenAux : Nat → Nat → Nat
  | 0, _ => 0
  | fuel + 1, n => if n = 0 then 0 else bitLenAux fuel (n / 2) + 1

/-- Number of binary digits of `n`. -/
def bitLen (n : Nat) : Nat := bitLenAux n n

/-- The fraction `num / (den * 2^e)` as a pair numerator, denominator. -/
def scale2 (num den : Nat) (e : Int) : Nat × Nat :=
  if 0 ≤ e then (num, den * 2 ^ e.toNat) else (num * 2 ^ (-e).toNat, den)

/-- The fraction `num * 10^e / den` as a pair numerator, denominator. -/
def scale10 (num den : Nat) (e : Int) : Nat × Nat :=
  if 0 ≤ e then (num * 10 ^ e.toNat, den) else (num, den * 10 ^ (-e).toNat)

/-- The integer nearest to `n / d`, ties to even. -/
def roundHalfEven (n d : Nat) : Nat :=
  let q := n / d
  let r := n % d
  if 2 * r > d ∨ (2 * r = d ∧ q % 2 = 1) then q + 1 else q

/-- Round the non-negative rational `num / den` to the nearest `float64` (ties to even):
the result is the pair mantissa, exponent. Overflow to infinity is not modelled. -/
def roundRat (num den : Nat) : Nat × Int :=
  if num = 0 then (0, 0)
  else
    let e1 : Int := (bitLen num : Int) - (bitLen den : Int) - 53
    let s1 := scale2 num den e1
    let e2 : Int := if s1.1 / s1.2 ≥ 2 ^ 53 then e1 + 1 else e1
    let e : Int := if e2 < -1074 then -1074 else e2
    let s := scale2 num den e
    let q := roundHalfEven s.1 s.2
    if q = 2 ^ 53 then (2 ^ 52, e + 1) else (q, e)

/-- Go `float64(i)` for an integer `i`. -/
def float64OfInt (i : Int) : Float64 :=
  let r := roundRat i.natAbs 1
  ⟨decide (i < 0), r.1, r.2⟩

/-- Go `int(f)` for a `float64`: the fraction is discarded. `none` when the value is outside
the range of `int` (the Go specification leaves that result to the implementation). -/
def intOfFloat64 (w : Nat) (f : Float64) : Option Int :=
  let s := scale2 f.mant 1 (-f.exp)
  let t : Int := ((s.1 / s.2 : Nat) : Int)
  let v := if f.neg then -t else t
  if -(2 : Int) ^ (w - 1) ≤ v ∧ v < (2 : Int) ^ (w - 1) then some v else none

/-! ## strconv: formatting floats (`ftoa.go`, format `'g'`, precision `-1`) -/

/-- Number of decimal digits of `n`, by division (`fuel` rounds). -/
def numDigitsAux : Nat → Nat → Nat
  | 0, _ => 0
  | fuel + 1, n => if n = 0 then 0 else numDigitsAux fuel (n / 10) + 1

/-- Number of decimal digits of `n`. -/
def numDigits (n : Nat) : Nat := numDigitsAux n n

/-- The least `k` from the start value on with `num * 10^k ≥ den` (`fuel` trials). -/
def leadAux : Nat → Nat → Nat → Nat → Nat
  | 0, _, _, k => k
  | fuel + 1, num, den, k => if num * 10 ^ k ≥ den then k else leadAux fuel num den (k + 1)

/-- The decimal point position `dp` of `num / den > 0`: `10^(dp-1) ≤ num/den < 10^dp`. -/
def decPoint (num den : Nat) : Int :=
  if num ≥ den then (numDigits (num / den) : Int)
  else 1 - (leadAux 400 num den 1 : Int)

/-- Drop the trailing decimal zeros of `n`. -/
def stripZerosAux : Nat → Nat → Nat
  | 0, n => n
  | fuel + 1, n => if n ≠ 0 ∧ n % 10 = 0 then stripZerosAux fuel (n / 10) else n

/-- The decimal digits of `n`, most significant first, in front of `acc`. -/
def digitListAux : Nat → Nat → List Nat → List Nat
  | 0, _, acc => acc
  | fuel + 1, n, acc => if n = 0 then acc else digitListAux fuel (n / 10) (n % 10 :: acc)

/-- The type `decimalSlice` of `strconv`: digits `d` (values 0 to 9) and the position `dp`
of the decimal point; the number is `0.d × 10^dp`. -/
structure decimalSlice where
  d : List Nat
  dp : Int
  deriving DecidableEq, Repr

/-- Search for the shortest digit string: the first `nd` (from the start value on) for which
the decimal nearest to the value with `nd` significant digits converts back to the same
`float64`. -/
def shortestAux (mant : Nat) (exp : Int) (num den : Nat) (dp : Int) : Nat → Nat → decimalSlice
  | 0, _ => ⟨[], 0⟩
  | fuel + 1, nd =>
    let s := scale10 num den ((nd : Int) - dp)
    let D := roundHalfEven s.1 s.2
    let back := scale10 D 1 (dp - (nd : Int))
    if roundRat back.1 back.2 = (mant, exp) then
      ⟨digitListAux 20 (stripZerosAux 20 D) [], dp - (nd : Int) + (numDigits D : Int)⟩
    else shortestAux mant exp num den dp fuel (nd + 1)

/-- The shortest decimal that identifies `f` among the `float64` values (what `strconv`
computes for precision `-1`); zero has no digits. -/
def shortest (f : Float64) : decimalSlice :=
  if f.mant = 0 then ⟨[], 0⟩
  else
    let s := scale2 f.mant 1 (-f.exp)
    shortestAux f.mant f.exp s.1 s.2 (decPoint s.1 s.2) 17 1

/-- The character of the decimal digit `d`. -/
def digitChar (d : Nat) : Char := Char.ofNat (48 + d)

/-- The function `fmtF` of `strconv`: `%f` layout with `prec` digits after the point. -/
def fmtF (neg : Bool) (digs : decimalSlice) (prec : Nat) : List Char :=
  let nd := digs.d.length
  let sign := if neg then ['-'] else []
  let ip :=
    if digs.dp > 0 then
      let m := min nd digs.dp.toNat
      (digs.d.take m).map digitChar ++ List.replicate (digs.dp.toNat - m) '0'
    else ['0']
  let fp :=
    if prec > 0 then
      '.' :: (List.range prec).map (fun i =>
        let j := digs.dp + (i : Int)
        if 0 ≤ j ∧ j < (nd : Int) then digitChar (digs.d.getD j.toNat 0) else '0')
    else []
  sign ++ ip ++ fp

/-- The function `fmtE` of `strconv`: `%e` layout with `prec` digits after the point. -/
def fmtE (neg : Bool) (digs : decimalSlice) (prec : Nat) : List Char :=
  let nd := digs.d.length
  let sign := if neg then ['-'] else []
  let first := if nd ≠ 0 then digitChar (digs.d.getD 0 0) else '0'
  let fp :=
    if prec > 0 then
      let m := min nd (prec + 1)
      '.' :: ((digs.d.take m).drop 1).map digitChar ++ List.replicate (prec + 1 - max m 1) '0'
    else []
  let exp : Int := if nd = 0 then 0 else digs.dp - 1
  let esign := if exp < 0 then '-' else '+'
  let e := exp.natAbs
  let ed :=
    if e < 10 then ['0', digitChar e]
    else if e < 100 then [digitChar (e / 10), digitChar (e % 10)]
    else [digitChar (e / 100), digitChar (e / 10 % 10), digitChar (e % 10)]
  sign ++ first :: fp ++ 'e' :: esign :: ed

/-- The function `strconv.FormatFloat(f, 'g', -1, 64)` on a finite value: `%e` layout when
the decimal exponent is below `-4` or at least `6`, `%f` layout otherwise. -/
def FormatFloat (f : Float64) : List Char :=
  let digs := shortest f
  let nd := digs.d.length
  let prec := nd
  let eprec : Int := 6
  let exp := digs.dp - 1
  if exp < -4 ∨ exp ≥ eprec then fmtE f.neg digs (prec - 1)
  else
    let prec := if (prec : Int) > digs.dp then nd else prec
    fmtF f.neg digs ((prec : Int) - digs.dp).toNat

/-! ## Types, values, constants -/

/-- The Go types the two programs use. -/
inductive GoType where
  | string
  | int
  | float64
  | bool
  | uintptr
  deriving DecidableEq, Repr

/-- A Go value together with its dynamic type (what an interface value holds). -/
inductive Value where
  | string (s : String)
  | int (n : Int)
  | float64 (f : Float64)
  | bool (b : Bool)
  | uintptr (n : Nat)
  deriving DecidableEq, Repr

/-- An untyped constant: a string, integer, floating-point (`m × 10^e`) or boolean literal. -/
inductive Const where
  | string (s : String)
  | int (n : Int)
  | float (m : Nat) (e : Int)
  | bool (b : Bool)
  deriving DecidableEq, Repr

/-- The dynamic type of a value. -/
def Value.type : Value → GoType
  | Value.string _ => GoType.string
  | Value.int _ => GoType.int
  | Value.float64 _ => GoType.float64
  | Value.bool _ => GoType.bool
  | Value.uintptr _ => GoType.uintptr

/-- The name of a type, as `reflect.Type.String` gives it. -/
def GoType.String : GoType → String
  | GoType.string => "string"
  | GoType.int => "int"
  | GoType.float64 => "float64"
  | GoType.bool => "bool"
  | GoType.uintptr => "uintptr"

/-- The zero value of a type: what `var x T` holds. -/
def GoType.zero : GoType → Value
  | GoType.string => Value.string ""
  | GoType.int => Value.int 0
  | GoType.float64 => Value.float64 ⟨false, 0, 0⟩
  | GoType.bool => Value.bool false
  | GoType.uintptr => Value.uintptr 0

/-- The default type of an untyped constant. -/
def Const.defaultType : Const → GoType
  | Const.string _ => GoType.string
  | Const.int _ => GoType.int
  | Const.float _ _ => GoType.float64
  | Const.bool _ => GoType.bool

/-- Conversion of a constant to a type, as in `var x T = c` or `const x T = c`; `none` where
the compiler rejects the declaration. `w` is the size of `int` in bits. -/
def Const.convert (w : Nat) : GoType → Const → Option Value
  | GoType.string, Const.string s => some (Value.string s)
  | GoType.int, Const.int n =>
    if -(2 : Int) ^ (w - 1) ≤ n ∧ n < (2 : Int) ^ (w - 1) then some (Value.int n) else none
  | GoType.int, Const.float m e =>
    let s := scale10 m 1 e
    if s.1 % s.2 = 0 ∧ ((s.1 / s.2 : Nat) : Int) < (2 : Int) ^ (w - 1)
    then some (Value.int ((s.1 / s.2 : Nat) : Int)) else none
  | GoType.uintptr, Const.int n =>
    if 0 ≤ n ∧ n < (2 : Int) ^ w then some (Value.uintptr n.toNat) else none
  | GoType.float64, Const.int n => some (Value.float64 (float64OfInt n))
  | GoType.float64, Const.float m e =>
    let s := scale10 m 1 e
    let r := roundRat s.1 s.2
    some (Value.float64 ⟨false, r.1, r.2⟩)
  | GoType.bool, Const.bool b => some (Value.bool b)
  | _, _ => none

/-- The value of a constant where no type is given: `var x = c`, `x := c`, or an untyped
constant passed as an interface argument. -/
def Const.default (w : Nat) (c : Const) : Option Value :=
  Const.convert w c.defaultType c

/-- The integer an `int` value holds. -/
def Value.asInt : Value → Option Int
  | Value.int n => some n
  | _ => none

/-- The string a `string` value holds. -/
def Value.asString : Value → Option String
  | Value.string s => some s
  | _ => none

/-- The conversion `float64(x)` of an `int` value. -/
def Value.toFloat64 : Value → Option Value
  | Value.int n => some (Value.float64 (float64OfInt n))
  | Value.float64 f => some (Value.float64 f)
  | _ => none

/-- The conversion `int(x)` of a `float64` value. -/
def Value.toInt (w : Nat) : Value → Option Value
  | Value.float64 f => (intOfFloat64 w f).map Value.int
  | Value.int n => some (Value.int n)
  | _ => none

/-- The function `unsafe.Sizeof`, by the type of its operand: an `int` and a `uintptr` take
one word of `w` bits, a string header two words (data pointer and length). -/
def Sizeof (w : Nat) (x : Value) : Value :=
  match x.type with
  | GoType.int => Value.uintptr (w / 8)
  | GoType.uintptr => Value.uintptr (w / 8)
  | GoType.float64 => Value.uintptr 8
  | GoType.bool => Value.uintptr 1
  | GoType.string => Value.uintptr (2 * (w / 8))

/-! ## fmt: the verbs `%v`, `%T`, `%d`, `%s` -/

/-- The constant `ldigits` of `fmt`. -/
def ldigits : String := "0123456789abcdefx"

/-- The loop `for u >= 10` of `fmt.fmtInteger` in base 10: one digit is written in front of
`buf` per round (`fuel` rounds at most; the buffer of `fmt` has 68 bytes). -/
def fmtIntegerLoop : Nat → Nat → List Char → Nat × List Char
  | 0, u, buf => (u, buf)
  | fuel + 1, u, buf =>
    if u ≥ 10 then
      let next := u / 10
      fmtIntegerLoop fuel next (Char.ofNat ((48 + u - next * 10) % 256) :: buf)
    else (u, buf)

/-- The function `fmt.fmtInteger(u, 10, isSigned, verb, ldigits)` without flags. -/
def fmtInteger (u : Nat) (isSigned : Bool) : List Char :=
  let negative : Bool := isSigned && decide (u ≥ 2 ^ 63)
  let u := if negative then (2 ^ 64 - u) % 2 ^ 64 else u
  let (u, buf) := fmtIntegerLoop 68 u []
  let buf := strAt ldigits u :: buf
  if negative then '-' :: buf else buf

/-- The text `%v` prints for a value. -/
def fmtValue : Value → List Char
  | Value.string s => s.data
  | Value.int n => fmtInteger (uint64 n) true
  | Value.float64 f => FormatFloat f
  | Value.bool b => if b then "true".data else "false".data
  | Value.uintptr n => fmtInteger n false

/-- The function `badVerb` of `fmt`: `%!verb(type=value)`. -/
def badVerb (verb : Char) (arg : Value) : List Char :=
  "%!".data ++ verb :: '(' :: arg.type.String.data ++ '=' :: fmtValue arg ++ [')']

/-- The function `printArg` of `fmt` for the verbs `v`, `T`, `d`, `s`. -/
def printArg (arg : Value) (verb : Char) : List Char :=
  if verb = 'T' then arg.type.String.data
  else if verb = 'v' then fmtValue arg
  else
    match arg with
    | Value.int _ => if verb = 'd' then fmtValue arg else badVerb verb arg
    | Value.uintptr _ => if verb = 'd' then fmtValue arg else badVerb verb arg
    | Value.string _ => if verb = 's' then fmtValue arg else badVerb verb arg
    | _ => badVerb verb arg

/-- The arguments a format did not use: `%!(EXTRA type=value, ...)`, nothing when none is left. -/
def extraArgs (a : List Value) : List Char :=
  if a = [] then []
  else
    "%!(EXTRA ".data ++
      ", ".data.intercalate (a.map (fun x => x.type.String.data ++ '=' :: fmtValue x)) ++ [')']

/-- The function `doPrintf` of `fmt` on the rest of the format and the arguments not yet used.
A verb is the character after `%`; flags, width and precision are outside the model. -/
def doPrintf : List Char → List Value → Option (List Char)
  | [], a => some (extraArgs a)
  | c :: rest, a =>
    if c = '%' then
      match rest, a with
      | [], a => some ("%!(NOVERB)".data ++ extraArgs a)
      | verb :: rest1, a =>
        if verb = '%' then (doPrintf rest1 a).map (fun r => '%' :: r)
        else if verb = 'v' ∨ verb = 'T' ∨ verb = 'd' ∨ verb = 's' then
          match a with
          | [] => (doPrintf rest1 []).map (fun r => "%!".data ++ verb :: "(MISSING)".data ++ r)
          | x :: xs => (doPrintf rest1 xs).map (fun r => printArg x verb ++ r)
        else none
    else (doPrintf rest a).map (fun r => c :: r)

/-- The function `fmt.Sprintf`. -/
def Sprintf (format : String) (a : List Value) : Option String :=
  (doPrintf format.data a).map String.mk

/-- Standard output: the writes made so far, oldest first. -/
abbrev Stdout := List String

/-- The text on standard output: the writes one after the other. -/
def Stdout.text (out : Stdout) : String := String.mk (out.flatMap String.data)

/-- The function `fmt.Println` with one string operand. -/
def Println (out : Stdout) (s : String) : Stdout :=
  out ++ [s ++ "\n"]

/-- The function `fmt.Printf`. -/
def Printf (out : Stdout) (format : String) (a : List Value) : Option Stdout :=
  (Sprintf format a).map (fun s => out ++ [s])

/-! ## Running a program -/

/-- A computation of the model: `none` where the model stops short. -/
def Go (α : Type) : Type := Option α

/-- Sequencing: the second computation runs on the result of the first. -/
@[noinline] def Go.bind {α β : Type} (x : Go α) (f : α → Go β) : Go β :=
  match x with
  | none => none
  | some a => f a

instance : Monad Go where
  pure := fun a => some a
  bind := Go.bind

/-- The outcome of a computation. -/
def Go.run {α : Type} (x : Go α) : Option α := x

/-! ## hello-system.go -/

/-- What the `runtime` package reports to the environment reporter: `runtime.Version()`,
`runtime.GOOS`, `runtime.GOARCH` and `runtime.NumCPU()`. -/
structure Runtime where
  Version : String
  GOOS : String
  GOARCH : String
  NumCPU : Int

namespace HelloSystem

/-- The function `main` of `hello-system.go`. -/
def main (runtime : Runtime) : Go Stdout := do
  let out : Stdout := []
  let out := Println out "=== Go Program Structure Demo ==="
  let out ← Printf out "Go Version: %s\n" [Value.string runtime.Version]
  let out ← Printf out "Operating System: %s\n" [Value.string runtime.GOOS]
  let out ← Printf out "Architecture: %s\n" [Value.string runtime.GOARCH]
  let out ← Printf out "CPU Count: %d\n" [Value.int runtime.NumCPU]
  return out

end HelloSystem

/-! ## data-collector.go -/

namespace DataCollector

/-- The function `demonstrateScope` of `data-collector.go`: it has no result; all it leaves
behind is what it wrote. -/
def demonstrateScope (w : Nat) (out : Stdout) : Go Stdout := do
  let localVar ← Const.default w (Const.string "I'm local to this function")
  let out ← Printf out "Inside function - localVar: %v\n" [localVar]
  return out

/-- The function `main` of `data-collector.go` on a platform whose `int` has `w` bits. -/
def main (w : Nat) : Go Stdout := do
  let out : Stdout := []
  let out := Println out "=== Go Variables and Types Demo ==="

  -- Method 1: var declaration with type
  let name ← Const.convert w GoType.string (Const.string "Alice")
  let age ← Const.convert w GoType.int (Const.int 30)
  let temperature ← Const.convert w GoType.float64 (Const.float 986 (-1))
  let isActive ← Const.convert w GoType.bool (Const.bool true)

  let out ← Printf out "name: %v (type: %T)\n" [name, name]
  let out ← Printf out "age: %v (type: %T)\n" [age, age]
  let out ← Printf out "temperature: %v (type: %T)\n" [temperature, temperature]
  let out ← Printf out "isActive: %v (type: %T)\n" [isActive, isActive]

  -- Method 2: var with type inference
  let city ← Const.default w (Const.string "New York")
  let score ← Const.default w (Const.float 955 (-1))
  let count ← Const.default w (Const.int 100)

  let out := Println out "\n2. Type Inference:"
  let out ← Printf out "city: %v (type: %T)\n" [city, city]
  let out ← Printf out "score: %v (type: %T)\n" [score, score]
  let out ← Printf out "count: %v (type: %T)\n" [count, count]

  -- Method 3: short declaration
  let country ← Const.default w (Const.string "USA")
  let rating ← Const.default w (Const.float 45 (-1))
  let total ← Const.default w (Const.int 250)

  let out := Println out "\n3. Short Declaration:"
  let out ← Printf out "country: %v (type: %T)\n" [country, country]
  let out ← Printf out "rating: %v (type: %T)\n" [rating, rating]
  let out ← Printf out "total: %v (type: %T)\n" [total, total]

  -- Zero values
  let emptyString := GoType.zero GoType.string
  let zeroInt := GoType.zero GoType.int
  let zeroFloat := GoType.zero GoType.float64
  let falseBool := GoType.zero GoType.bool

  let out := Println out "\n4. Zero Values:"
  let out ← Printf out "emptyString: '%v' (type: %T)\n" [emptyString, emptyString]
  let out ← Printf out "zeroInt: %v (type: %T)\n" [zeroInt, zeroInt]
  let out ← Printf out "zeroFloat: %v (type: %T)\n" [zeroFloat, zeroFloat]
  let out ← Printf out "falseBool: %v (type: %T)\n" [falseBool, falseBool]

  -- Constants
  let pi ← Const.convert w GoType.float64 (Const.float 314159 (-5))
  let maxRetries ← Const.default w (Const.int 3)
  let greeting ← Const.default w (Const.string "Welcome")

  let out := Println out "\n5. Constants:"
  let out ← Printf out "pi: %v (type: %T)\n" [pi, pi]
  let out ← Printf out "maxRetries: %v (type: %T)\n" [maxRetries, maxRetries]
  let out ← Printf out "greeting: %v (type: %T)\n" [greeting, greeting]

  -- Type sizes
  let out := Println out "\n6. Type Sizes:"
  let out ← Printf out "size of int: %d bytes\n" [Sizeof w age]
  let out ← Printf out "size of float64: %d bytes\n" [Sizeof w temperature]
  let out ← Printf out "size of bool: %d bytes\n" [Sizeof w isActive]
  let out ← Printf out "size of string: %d bytes\n" [Sizeof w name]

  -- Type conversions
  let intValue ← Const.convert w GoType.int (Const.int 42)
  let floatValue ← intValue.toFloat64
  let backToInt ← floatValue.toInt w

  let out := Println out "\n7. Numeric Type Conversions:"
  let out ← Printf out "intValue: %v (type: %T)\n" [intValue, intValue]
  let out ← Printf out "floatValue: %v (type: %T)\n" [floatValue, floatValue]
  let out ← Printf out "backToInt: %v (type: %T)\n" [backToInt, backToInt]

  -- String conversions
  let stringAge := Value.string (Itoa w (← age.asInt))
  let parsedAge := Value.int (Atoi w (← stringAge.asString)).1

  let out := Println out "\n8. Stirng Conversions:"
  let out ← Printf out "age as string: '%v' (type: %T)\n" [stringAge, stringAge]
  let out ← Printf out "parsed back to int: %v (type: %T)\n" [parsedAge, parsedAge]

  -- Variable scope demonstration
  let out := Println out "\n9. Variable Scope:"
  let out ← demonstrateScope w out
  let out := Println out "Main function continues after demonstrateScope()"
  return out

end DataCollector

/-! ## Vocabulary of the statements -/

/-- The decimal digits of `n`, most significant first (a single `0` for zero). -/
def decDigits (n : Nat) : List Nat :=
  if n = 0 then [0] else (Nat.digits 10 n).reverse

/-- The decimal numeral of `n`, with no sign and no leading zero. -/
def decimal (n : Nat) : List Char := (decDigits n).map digitChar

/-- The decimal numeral of an integer: a minus sign for a negative one, then the numeral of
its absolute value. -/
def decimalInt (i : Int) : List Char :=
  (if i < 0 then ['-'] else []) ++ decimal i.natAbs

/-- The number a list of decimal digits (most significant first) denotes, read in after `acc`. -/
def readDigits (ds : List Nat) (acc : Nat) : Nat :=
  ds.foldl (fun a d => a * 10 + d) acc

/-- A write that opens a section of the demo: it starts with an empty line. -/
def isHeader (s : String) : Bool := s.data.head? = some '\n'

/-- The writes in front of the next section header. -/
def upToHeader : List String → List String
  | [] => []
  | x :: xs => if isHeader x then [] else x :: upToHeader xs

/-- The writes that follow the first write equal to `hdr`, up to the next section header. -/
def sectionOf (hdr : String) : List String → List String
  | [] => []
  | x :: xs => if x = hdr then upToHeader xs else sectionOf hdr xs

/-- Split a text at its newlines; `cur` is the line read so far. A last line with no newline
after it counts when it is not empty. -/
def linesAux : List Char → List Char → List (List Char)
  | [], cur => if cur = [] then [] else [cur]
  | c :: cs, cur => if c = '\n' then cur :: linesAux cs [] else linesAux cs (cur ++ [c])

/-- The lines of the text on standard output. -/
def Stdout.lines (out : Stdout) : List (List Char) :=
  linesAux out.text.data []

/-- Whether the text `pat` occurs in `s`. -/
def occursIn (pat s : String) : Bool :=
  s.data.tails.any (fun t => decide (t.take pat.data.length = pat.data))

/-! ## Decimal numerals: the library loops against the specification -/

theorem decDigits_lt_ten {n : Nat} (h : n < 10) : decDigits n = [n] := by
  unfold decDigits
  split
  · subst_vars; rfl
  · rw [Nat.digits_of_lt 10 n (by omega) h]; rfl

theorem decDigits_step {n : Nat} (h : 10 ≤ n) :
    decDigits n = decDigits (n / 10) ++ [n % 10] := by
  have h1 : n ≠ 0 := by omega
  have h2 : n / 10 ≠ 0 := by omega
  unfold decDigits
  rw [if_neg h1, if_neg h2, Nat.digits_def' (by decide) (by omega)]
  simp

theorem decDigits_lt (n : Nat) : ∀ d ∈ decDigits n, d < 10 := by
  intro d hd
  unfold decDigits at hd
  split at hd
  · simp at hd; omega
  · exact Nat.digits_lt_base (by decide) (List.mem_reverse.mp hd)

theorem decDigits_ne_nil (n : Nat) : decDigits n ≠ [] := by
  unfold decDigits
  split
  · simp
  · intro h
    have h3 : Nat.digits 10 n ≠ [] := Nat.digits_ne_nil_iff_ne_zero.mpr ‹_›
    exact h3 (List.reverse_eq_nil_iff.mp h)

theorem readDigits_decDigits (n : Nat) : readDigits (decDigits n) 0 = n := by
  induction n using Nat.strong_induction_on with
  | _ n ih =>
    by_cases h : n < 10
    · rw [decDigits_lt_ten h]; simp [readDigits]
    · rw [decDigits_step (by omega)]
      have := ih (n / 10) (by omega)
      simp only [readDigits, List.foldl_append, List.foldl_cons, List.foldl_nil] at this ⊢
      rw [this]; omega

theorem decimal_lt_ten {n : Nat} (h : n < 10) : decimal n = [digitChar n] := by
  simp [decimal, decDigits_lt_ten h]

theorem decimal_step {n : Nat} (h : 10 ≤ n) :
    decimal n = decimal (n / 10) ++ [digitChar (n % 10)] := by
  simp [decimal, decDigits_step h]

theorem decimal_step100 {n : Nat} (h : 100 ≤ n) :
    decimal n = decimal (n / 100) ++ [digitChar (n % 100 / 10), digitChar (n % 10)] := by
  rw [decimal_step (by omega), decimal_step (by omega : 10 ≤ n / 10)]
  have e1 : n / 10 / 10 = n / 100 := by omega
  have e2 : n / 10 % 10 = n % 100 / 10 := by omega
  rw [e1, e2]; simp

theorem fmtIntegerLoop_spec (fuel : Nat) : ∀ (u : Nat) (buf : List Char), u < 10 ^ (fuel + 1) →
    (fmtIntegerLoop fuel u buf).1 < 10 ∧
    decimal (fmtIntegerLoop fuel u buf).1 ++ (fmtIntegerLoop fuel u buf).2 = decimal u ++ buf := by
  induction fuel with
  | zero => intro u buf h; simp [fmtIntegerLoop] at h ⊢; omega
  | succ k ih =>
    intro u buf h
    unfold fmtIntegerLoop
    by_cases hu : u ≥ 10
    · simp only [hu, if_true]
      have hlt : u / 10 < 10 ^ (k + 1) := by
        rw [Nat.div_lt_iff_lt_mul (by decide)]
        calc u < 10 ^ (k + 1 + 1) := h
          _ = 10 ^ (k + 1) * 10 := by ring
      have hd : (48 + u - u / 10 * 10) % 256 = 48 + u % 10 := by omega
      obtain ⟨h1, h2⟩ := ih (u / 10) (Char.ofNat ((48 + u - u / 10 * 10) % 256) :: buf) hlt
      refine ⟨h1, ?_⟩
      rw [h2, hd, decimal_step hu]
      simp [digitChar]
    · simp only [hu, if_false]
      exact ⟨by omega, trivial⟩

theorem strAt_ldigits {u : Nat} (h : u < 10) : strAt ldigits u = digitChar u := by
  interval_cases u <;> rfl

theorem uint64_of_nonneg {n : Int} (h0 : 0 ≤ n) (hhi : n < (2 : Int) ^ 63) :
    uint64 n = n.natAbs := by
  unfold uint64
  omega

theorem uint64_of_neg {n : Int} (h0 : n < 0) (hlo : -(2 : Int) ^ 63 ≤ n) :
    uint64 n = 2 ^ 64 - n.natAbs ∧ n.natAbs ≤ 2 ^ 63 ∧ 0 < n.natAbs := by
  unfold uint64
  omega

theorem fmtInteger_nat (u : Nat) (h : u < 2 ^ 64) :
    (let r := fmtIntegerLoop 68 u []; strAt ldigits r.1 :: r.2) = decimal u := by
  obtain ⟨h1, h2⟩ := fmtIntegerLoop_spec 68 u [] (by
    calc u < 2 ^ 64 := h
      _ ≤ 10 ^ (68 + 1) := by norm_num)
  simp only
  rw [strAt_ldigits h1, ← List.append_nil (decimal u), ← h2, decimal_lt_ten h1]
  rfl

/-- What `%v` and `%d` print for an `int` is its decimal numeral. -/
theorem fmtInteger_signed (n : Int) (hlo : -(2 : Int) ^ 63 ≤ n) (hhi : n < (2 : Int) ^ 63) :
    fmtInteger (uint64 n) true = decimalInt n := by
  unfold fmtInteger decimalInt
  by_cases h0 : 0 ≤ n
  · have hu := uint64_of_nonneg h0 hhi
    have hlt : n.natAbs < 2 ^ 63 := by omega
    have hneg : ¬ n.natAbs ≥ 2 ^ 63 := by omega
    have hn : ¬ n < 0 := by omega
    have := fmtInteger_nat n.natAbs (by omega)
    simp only [hu, hneg, hn, decide_False, Bool.and_false, if_false, Bool.false_eq_true,
      List.nil_append] at this ⊢
    exact this
  · obtain ⟨hu, hb, hp⟩ := uint64_of_neg (by omega) hlo
    have hge : 2 ^ 64 - n.natAbs ≥ 2 ^ 63 := by omega
    have hn : n < 0 := by omega
    have hm : (2 ^ 64 - (2 ^ 64 - n.natAbs)) % 2 ^ 64 = n.natAbs := by omega
    have := fmtInteger_nat n.natAbs (by omega)
    simp only [hu, hge, hn, decide_True, Bool.and_true, if_true, hm,
      List.singleton_append] at this ⊢
    rw [this]

/-- What `%d` prints for a `uintptr` is its decimal numeral. -/
theorem fmtInteger_unsigned (u : Nat) (h : u < 2 ^ 64) :
    fmtInteger u false = decimal u := by
  unfold fmtInteger
  have := fmtInteger_nat u h
  simp only [Bool.false_and, if_false, Bool.false_eq_true] at this ⊢
  exact this

theorem smallsString_spec {k : Nat} (h : k < 100) :
    strAt smallsString (k * 2) = digitChar (k / 10) ∧
    strAt smallsString (k * 2 + 1) = digitChar (k % 10) := by
  interval_cases k <;> exact ⟨rfl, rfl⟩

theorem small_spec {i : Nat} (h : i < 100) : small i = decimal i := by
  by_cases h10 : i < 10
  · rw [decimal_lt_ten h10]
    interval_cases i <;> rfl
  · rw [decimal_step (by omega), decimal_lt_ten (by omega : i / 10 < 10)]
    interval_cases i <;> rfl

theorem formatBitsLoop_spec (fuel : Nat) : ∀ (us : Nat) (a : List Char), us < 100 ^ (fuel + 1) →
    (formatBitsLoop fuel us a).1 < 100 ∧
    decimal (formatBitsLoop fuel us a).1 ++ (formatBitsLoop fuel us a).2 = decimal us ++ a := by
  induction fuel with
  | zero => intro us a h; simp [formatBitsLoop] at h ⊢; omega
  | succ k ih =>
    intro us a h
    unfold formatBitsLoop
    by_cases hu : us ≥ 100
    · simp only [hu, if_true]
      have hlt : us / 100 < 100 ^ (k + 1) := by
        rw [Nat.div_lt_iff_lt_mul (by decide)]
        calc us < 100 ^ (k + 1 + 1) := h
          _ = 100 ^ (k + 1) * 100 := by ring
      obtain ⟨t1, t2⟩ := smallsString_spec (Nat.mod_lt us (by decide : 100 > 0))
      obtain ⟨h1, h2⟩ := ih (us / 100)
        (strAt smallsString (us % 100 * 2 + 0) :: strAt smallsString (us % 100 * 2 + 1) :: a) hlt
      refine ⟨h1, ?_⟩
      rw [h2, Nat.add_zero, t1, t2, decimal_step100 hu]
      have e : us % 100 % 10 = us % 10 := by omega
      rw [e]; simp
    · simp only [hu, if_false]
      exact ⟨by omega, trivial⟩

theorem formatBitsPairs_four (us : Nat) (a : List Char) :
    formatBitsPairs 4 us a =
      (us / 100000000,
        digitChar (us / 10000000 % 10) :: digitChar (us / 1000000 % 10) ::
        digitChar (us / 100000 % 10) :: digitChar (us / 10000 % 10) ::
        digitChar (us / 1000 % 10) :: digitChar (us / 100 % 10) ::
        digitChar (us / 10 % 10) :: digitChar (us % 10) :: a) := by
  obtain ⟨a1, b1⟩ := smallsString_spec (Nat.mod_lt us (by decide : 100 > 0))
  obtain ⟨a2, b2⟩ := smallsString_spec (Nat.mod_lt (us / 100) (by decide : 100 > 0))
  obtain ⟨a3, b3⟩ := smallsString_spec (Nat.mod_lt (us / 100 / 100) (by decide : 100 > 0))
  obtain ⟨a4, b4⟩ := smallsString_spec (Nat.mod_lt (us / 100 / 100 / 100) (by decide : 100 > 0))
  simp only [formatBitsPairs, Nat.add_zero, a1, b1, a2, b2, a3, b3, a4, b4]
  have e0 : us % 100 % 10 = us % 10 := by omega
  have e1 : us % 100 / 10 = us / 10 % 10 := by omega
  have e2 : us / 100 % 100 % 10 = us / 100 % 10 := by omega
  have e3 : us / 100 % 100 / 10 = us / 1000 % 10 := by omega
  have e4 : us / 100 / 100 % 100 % 10 = us / 10000 % 10 := by omega
  have e5 : us / 100 / 100 % 100 / 10 = us / 100000 % 10 := by omega
  have e6 : us / 100 / 100 / 100 % 100 % 10 = us / 1000000 % 10 := by omega
  have e7 : us / 100 / 100 / 100 % 100 / 10 = us / 10000000 % 10 := by omega
  have e8 : us / 100 / 100 / 100 / 100 = us / 100000000 := by omega
  rw [e0, e1, e2, e3, e4, e5, e6, e7, e8]

theorem decimal_step9 {u : Nat} (h : 1000000000 ≤ u) :
    decimal u = decimal (u / 1000000000) ++
      [digitChar (u / 100000000 % 10), digitChar (u / 10000000 % 10),
       digitChar (u / 1000000 % 10), digitChar (u / 100000 % 10), digitChar (u / 10000 % 10),
       digitChar (u / 1000 % 10), digitChar (u / 100 % 10), digitChar (u / 10 % 10),
       digitChar (u % 10)] := by
  rw [decimal_step (by omega : 10 ≤ u), decimal_step (by omega : 10 ≤ u / 10),
    decimal_step (by omega : 10 ≤ u / 10 / 10), decimal_step (by omega : 10 ≤ u / 10 / 10 / 10),
    decimal_step (by omega : 10 ≤ u / 10 / 10 / 10 / 10),
    decimal_step (by omega : 10 ≤ u / 10 / 10 / 10 / 10 / 10),
    decimal_step (by omega : 10 ≤ u / 10 / 10 / 10 / 10 / 10 / 10),
    decimal_step (by omega : 10 ≤ u / 10 / 10 / 10 / 10 / 10 / 10 / 10),
    decimal_step (by omega : 10 ≤ u / 10 / 10 / 10 / 10 / 10 / 10 / 10 / 10)]
  have e1 : u / 10 / 10 = u / 100 := by omega
  have e2 : u / 100 / 10 = u / 1000 := by omega
  have e3 : u / 1000 / 10 = u / 10000 := by omega
  have e4 : u / 10000 / 10 = u / 100000 := by omega
  have e5 : u / 100000 / 10 = u / 1000000 := by omega
  have e6 : u / 1000000 / 10 = u / 10000000 := by omega
  have e7 : u / 10000000 / 10 = u / 100000000 := by omega
  have e8 : u / 100000000 / 10 = u / 1000000000 := by omega
  simp only [e1, e2, e3, e4, e5, e6, e7, e8, List.append_assoc, List.singleton_append,
    List.cons_append, List.nil_append]

theorem digit_of_mod (u a b : Nat) (hb : 10 ∣ b) : u % (a * b) / a % 10 = u / a % 10 := by
  rw [Nat.mod_mul_right_div_self, Nat.mod_mod_of_dvd _ hb]

theorem formatBitsHost32_spec (fuel : Nat) : ∀ (u : Nat) (a : List Char),
    u < 1000000000 ^ (fuel + 1) →
    (formatBitsHost32 fuel u a).1 < 1000000000 ∧
    decimal (formatBitsHost32 fuel u a).1 ++ (formatBitsHost32 fuel u a).2 = decimal u ++ a := by
  induction fuel with
  | zero => intro u a h; simp [formatBitsHost32] at h ⊢; omega
  | succ k ih =>
    intro u a h
    unfold formatBitsHost32
    by_cases hu : u ≥ 1000000000
    · rw [if_pos hu]
      simp only
      have hlt : u / 1000000000 < 1000000000 ^ (k + 1) := by
        rw [Nat.div_lt_iff_lt_mul (by norm_num)]
        calc u < 1000000000 ^ (k + 1 + 1) := h
          _ = 1000000000 ^ (k + 1) * 1000000000 := by ring
      have hus : (u - u / 1000000000 * 1000000000) % 2 ^ 32 = u % 1000000000 := by omega
      rw [hus, formatBitsPairs_four]
      simp only
      have hk : u % 1000000000 / 100000000 < 100 := by omega
      have hd : strAt smallsString (u % 1000000000 / 100000000 * 2 + 1) =
          digitChar (u / 100000000 % 10) := by
        rw [(smallsString_spec hk).2, digit_of_mod u 100000000 10 (by norm_num)]
      obtain ⟨h1, h2⟩ := ih (u / 1000000000)
        (strAt smallsString (u % 1000000000 / 100000000 * 2 + 1) ::
          digitChar (u % 1000000000 / 10000000 % 10) ::
          digitChar (u % 1000000000 / 1000000 % 10) ::
          digitChar (u % 1000000000 / 100000 % 10) :: digitChar (u % 1000000000 / 10000 % 10) ::
          digitChar (u % 1000000000 / 1000 % 10) :: digitChar (u % 1000000000 / 100 % 10) ::
          digitChar (u % 1000000000 / 10 % 10) :: digitChar (u % 1000000000 % 10) :: a) hlt
      refine ⟨h1, ?_⟩
      rw [h2, hd, decimal_step9 hu]
      have f1 : u % 1000000000 / 10000000 % 10 = u / 10000000 % 10 :=
        digit_of_mod u 10000000 100 (by norm_num)
      have f2 : u % 1000000000 / 1000000 % 10 = u / 1000000 % 10 :=
        digit_of_mod u 1000000 1000 (by norm_num)
      have f3 : u % 1000000000 / 100000 % 10 = u / 100000 % 10 :=
        digit_of_mod u 100000 10000 (by norm_num)
      have f4 : u % 1000000000 / 10000 % 10 = u / 10000 % 10 :=
        digit_of_mod u 10000 100000 (by norm_num)
      have f5 : u % 1000000000 / 1000 % 10 = u / 1000 % 10 :=
        digit_of_mod u 1000 1000000 (by norm_num)
      have f6 : u % 1000000000 / 100 % 10 = u / 100 % 10 :=
        digit_of_mod u 100 10000000 (by norm_num)
      have f7 : u % 1000000000 / 10 % 10 = u / 10 % 10 :=
        digit_of_mod u 10 100000000 (by norm_num)
      have f8 : u % 1000000000 % 10 = u % 10 := Nat.mod_mod_of_dvd _ (by norm_num)
      rw [f1, f2, f3, f4, f5, f6, f7, f8]
      simp
    · rw [if_neg hu]
      exact ⟨by omega, rfl⟩

theorem formatBitsTail (us : Nat) (a : List Char) (h : us < 100) :
    (if us ≥ 10 then strAt smallsString (us * 2) :: strAt smallsString (us * 2 + 1) :: a
     else strAt smallsString (us * 2 + 1) :: a) = decimal us ++ a := by
  obtain ⟨t1, t2⟩ := smallsString_spec h
  rw [t1, t2]
  by_cases h10 : us ≥ 10
  · rw [if_pos h10, decimal_step h10, decimal_lt_ten (by omega)]; simp
  · have e : us % 10 = us := by omega
    rw [if_neg h10, decimal_lt_ten (by omega), e]; simp

/-- The digits `formatBits` writes are the decimal numeral of its argument, on a 32-bit and on
a 64-bit host. -/
theorem formatBitsBase10_spec (w : Nat) (hw : w = 32 ∨ w = 64) (u : Nat) (h : u < 2 ^ 64) :
    formatBitsBase10 w u = decimal u := by
  unfold formatBitsBase10
  simp only
  rcases hw with rfl | rfl
  · obtain ⟨g1, g2⟩ := formatBitsHost32_spec 7 u [] (by
      calc u < 2 ^ 64 := h
        _ ≤ 1000000000 ^ (7 + 1) := by norm_num)
    have hm : (formatBitsHost32 7 u []).1 % 2 ^ 32 = (formatBitsHost32 7 u []).1 := by omega
    obtain ⟨h1, h2⟩ := formatBitsLoop_spec 32 (formatBitsHost32 7 u []).1
      (formatBitsHost32 7 u []).2 (by
        calc (formatBitsHost32 7 u []).1 < 1000000000 := g1
          _ ≤ 100 ^ (32 + 1) := by norm_num)
    rw [if_pos rfl, hm, formatBitsTail _ _ h1, h2, g2, List.append_nil]
  · obtain ⟨h1, h2⟩ := formatBitsLoop_spec 32 u [] (by
      calc u < 2 ^ 64 := h
        _ ≤ 100 ^ (32 + 1) := by norm_num)
    have hm : u % 2 ^ 64 = u := Nat.mod_eq_of_lt h
    rw [if_neg (show ¬ (64 = 32) by decide)]
    simp only
    rw [hm, formatBitsTail _ _ h1, h2, List.append_nil]

/-- The string `FormatInt` returns is the decimal numeral of its argument. -/
theorem FormatInt_spec (w : Nat) (hw : w = 32 ∨ w = 64) (i : Int)
    (hlo : -(2 : Int) ^ 63 ≤ i) (hhi : i < (2 : Int) ^ 63) :
    (FormatInt w i).data = decimalInt i := by
  unfold FormatInt decimalInt
  by_cases hs : 0 ≤ i ∧ i < nSmalls
  · have hn : ¬ i < 0 := by omega
    have hlt : i.toNat < 100 := by have := hs.2; unfold nSmalls at this; omega
    have e : i.toNat = i.natAbs := by omega
    rw [if_pos hs, if_neg hn, small_spec hlt, e]; rfl
  · rw [if_neg hs]
    unfold formatBits
    by_cases h0 : 0 ≤ i
    · have hu := uint64_of_nonneg h0 hhi
      have hn : ¬ i < 0 := by omega
      have := formatBitsBase10_spec w hw i.natAbs (by omega)
      simp only [hu, hn, decide_False, if_false, Bool.false_eq_true, List.nil_append, this]
    · obtain ⟨hu, hb, hp⟩ := uint64_of_neg (by omega) hlo
      have hn : i < 0 := by omega
      have hm : (2 ^ 64 - (2 ^ 64 - i.natAbs)) % 2 ^ 64 = i.natAbs := by omega
      have := formatBitsBase10_spec w hw i.natAbs (by omega)
      simp only [hu, hn, decide_True, if_true, hm, List.singleton_append, this]

/-! ## Parsing a decimal numeral back -/

theorem bytes_cons (c : Char) (cs : List Char) :
    bytes (String.mk (c :: cs)) =
      (String.utf8EncodeChar c).map UInt8.toNat ++ bytes (String.mk cs) := by
  simp [bytes]

theorem bytes_digitChar {d : Nat} (h : d < 10) :
    (String.utf8EncodeChar (digitChar d)).map UInt8.toNat = [48 + d] := by
  interval_cases d <;> rfl

theorem bytes_digits (ds : List Nat) (h : ∀ d ∈ ds, d < 10) :
    bytes (String.mk (ds.map digitChar)) = ds.map (fun d => 48 + d) := by
  induction ds with
  | nil => rfl
  | cons d ds ih =>
    rw [List.map_cons, bytes_cons, bytes_digitChar (h d (List.mem_cons_self _ _)),
      ih (fun x hx => h x (List.mem_cons_of_mem _ hx))]
    rfl

theorem bytes_decimal (n : Nat) :
    bytes (String.mk (decimal n)) = (decDigits n).map (fun d => 48 + d) :=
  bytes_digits _ (decDigits_lt n)

theorem bytes_minus (cs : List Char) :
    bytes (String.mk ('-' :: cs)) = 45 :: bytes (String.mk cs) := by
  rw [bytes_cons]; rfl

theorem readDigits_ge (ds : List Nat) : ∀ n, n ≤ readDigits ds n := by
  induction ds with
  | nil => intro n; exact Nat.le_refl _
  | cons d ds ih =>
    intro n
    have := ih (n * 10 + d)
    simp only [readDigits, List.foldl_cons] at this ⊢
    omega

theorem atoiLoop_digits (ds : List Nat) : ∀ (a : Nat), (∀ d ∈ ds, d < 10) →
    atoiLoop (ds.map (fun d => 48 + d)) (a : Int) = some ((readDigits ds a : Nat) : Int) := by
  induction ds with
  | nil => intro a _; rfl
  | cons d ds ih =>
    intro a h
    have hd : d < 10 := h d (List.mem_cons_self _ _)
    have e : (48 + d + 256 - 48) % 256 = d := by omega
    have hn : ¬ d > 9 := by omega
    have := ih (a * 10 + d) (fun x hx => h x (List.mem_cons_of_mem _ hx))
    simp only [List.map_cons, atoiLoop, e, hn, if_false, readDigits, List.foldl_cons] at this ⊢
    rw [← this]; push_cast; rfl

theorem parseUintLoop_digits (maxVal : Nat) (hmax : maxVal < 2 ^ 64) (ds : List Nat) :
    ∀ (n : Nat), (∀ d ∈ ds, d < 10) → readDigits ds n ≤ maxVal →
    parseUintLoop maxVal (ds.map (fun d => 48 + d)) n = (readDigits ds n, none) := by
  induction ds with
  | nil => intro n _ _; rfl
  | cons d ds ih =>
    intro n h hle
    have hd : d < 10 := h d (List.mem_cons_self _ _)
    have hle1 : readDigits ds (n * 10 + d) ≤ maxVal := hle
    have hge := readDigits_ge ds (n * 10 + d)
    have c1 : 48 ≤ 48 + d ∧ 48 + d ≤ 57 := by omega
    have c2 : ¬ n ≥ maxUint64 / 10 + 1 := by unfold maxUint64; omega
    have c3 : (n * 10 + (48 + d - 48)) % 2 ^ 64 = n * 10 + d := by omega
    have c4 : ¬ (n * 10 + d < n * 10 ∨ n * 10 + d > maxVal) := by omega
    have := ih (n * 10 + d) (fun x hx => h x (List.mem_cons_of_mem _ hx)) hle1
    simp only [List.map_cons, parseUintLoop, c1, and_self, if_true, c2, if_false, c3, c4]
    rw [this]; rfl

theorem decDigits_head (n : Nat) :
    ((decDigits n).map (fun d => 48 + d)).head? ≠ some 45 ∧
    ((decDigits n).map (fun d => 48 + d)).head? ≠ some 43 := by
  have hlt := decDigits_lt n
  cases h : decDigits n with
  | nil => simp
  | cons d ds =>
    have : d < 10 := hlt d (by rw [h]; exact List.mem_cons_self _ _)
    simp only [List.map_cons, List.head?_cons, ne_eq, Option.some.injEq]
    omega

theorem Itoa_eq (w : Nat) (hw : w = 32 ∨ w = 64) (n : Int)
    (hlo : -(2 : Int) ^ 63 ≤ n) (hhi : n < (2 : Int) ^ 63) :
    Itoa w n = String.mk (decimalInt n) := by
  have := FormatInt_spec w hw n hlo hhi
  unfold Itoa
  rw [← this]

theorem bytes_Itoa_nonneg (w : Nat) (hw : w = 32 ∨ w = 64) (n : Int) (h0 : 0 ≤ n)
    (hhi : n < (2 : Int) ^ 63) :
    bytes (Itoa w n) = (decDigits n.natAbs).map (fun d => 48 + d) := by
  have hn : ¬ n < 0 := by omega
  rw [Itoa_eq w hw n (by omega) hhi, decimalInt, if_neg hn, List.nil_append, bytes_decimal]

theorem bytes_Itoa_neg (w : Nat) (hw : w = 32 ∨ w = 64) (n : Int) (h0 : n < 0)
    (hlo : -(2 : Int) ^ 63 ≤ n) :
    bytes (Itoa w n) = 45 :: (decDigits n.natAbs).map (fun d => 48 + d) := by
  rw [Itoa_eq w hw n hlo (by omega), decimalInt, if_pos h0, List.singleton_append, bytes_minus,
    bytes_decimal]

theorem atoi_fast (w : Nat) (hw : w = 32 ∨ w = 64) (n : Int)
    (hlo : -(2 : Int) ^ 63 ≤ n) (hhi : n < (2 : Int) ^ 63) :
    (let s0 := bytes (Itoa w n)
     let signed : Bool := s0.head? = some 45 ∨ s0.head? = some 43
     let s1 := if signed then s0.tail else s0
     if signed ∧ s1.length < 1 then ((0 : Int), some NumError.ErrSyntax)
     else
       match atoiLoop s1 0 with
       | none => (0, some NumError.ErrSyntax)
       | some m => (if s0.head? = some 45 then -m else m, none)) = (n, none) := by
  have hloop := atoiLoop_digits (decDigits n.natAbs) 0 (decDigits_lt _)
  rw [readDigits_decDigits] at hloop
  have hne : (decDigits n.natAbs).map (fun d => 48 + d) ≠ [] := by
    simp [decDigits_ne_nil]
  obtain ⟨hh1, hh2⟩ := decDigits_head n.natAbs
  by_cases h0 : 0 ≤ n
  · rw [bytes_Itoa_nonneg w hw n h0 hhi]
    simp only [hh1, hh2, or_self, decide_False, Bool.false_eq_true, false_and, if_false]
    simp only [Nat.cast_zero] at hloop
    rw [hloop]
    simp only [Prod.mk.injEq, and_true]
    omega
  · rw [bytes_Itoa_neg w hw n (by omega) hlo]
    have hlen : ¬ ((decDigits n.natAbs).map (fun d => 48 + d)).length < 1 := by
      cases h : (decDigits n.natAbs).map (fun d => 48 + d) with
      | nil => exact absurd h hne
      | cons a l => simp
    simp only [List.head?_cons, true_or, decide_True, if_true, List.tail_cons, hlen, and_false,
      if_false]
    simp only [Nat.cast_zero] at hloop
    rw [hloop]
    simp only [Prod.mk.injEq, and_true]
    omega

theorem ParseInt_Itoa (w : Nat) (n : Int) (hw : w = 32 ∨ w = 64)
    (hlo : -(2 : Int) ^ (w - 1) ≤ n) (hhi : n < (2 : Int) ^ (w - 1)) :
    ParseInt w (bytes (Itoa w n)) = (n, none) := by
  have hne : (decDigits n.natAbs).map (fun d => 48 + d) ≠ [] := by
    simp [decDigits_ne_nil]
  obtain ⟨hh1, hh2⟩ := decDigits_head n.natAbs
  have hrd := readDigits_decDigits n.natAbs
  rcases hw with rfl | rfl
  · -- 32-bit int
    norm_num at hlo hhi
    have hloop := parseUintLoop_digits (2 ^ 32 - 1) (by norm_num) (decDigits n.natAbs) 0
      (decDigits_lt _) (by rw [hrd]; omega)
    rw [hrd] at hloop
    by_cases h0 : 0 ≤ n
    · rw [bytes_Itoa_nonneg 32 (Or.inl rfl) n h0 (by omega)]
      unfold ParseInt ParseUint
      have c1 : ¬ (n.natAbs ≥ 2 ^ (32 - 1)) := by omega
      simp only [hne, if_false, hh1, hh2, or_self, decide_False, hloop, Bool.false_eq_true,
        false_and, c1, and_false, Prod.mk.injEq, and_true]
      omega
    · rw [bytes_Itoa_neg 32 (Or.inl rfl) n (by omega) (by omega)]
      unfold ParseInt ParseUint
      have c1 : ¬ (n.natAbs > 2 ^ (32 - 1)) := by omega
      simp only [List.cons_ne_nil, if_false, List.head?_cons, or_true, if_true, List.tail_cons,
        hne, hloop, decide_True, not_true_eq_false, false_and, c1, and_false, true_and,
        Prod.mk.injEq, and_true, reduceCtorEq]
      omega
  · -- 64-bit int
    norm_num at hlo hhi
    have hloop := parseUintLoop_digits (2 ^ 64 - 1) (by norm_num) (decDigits n.natAbs) 0
      (decDigits_lt _) (by rw [hrd]; omega)
    rw [hrd] at hloop
    by_cases h0 : 0 ≤ n
    · rw [bytes_Itoa_nonneg 64 (Or.inr rfl) n h0 (by omega)]
      unfold ParseInt ParseUint
      have c1 : ¬ (n.natAbs ≥ 2 ^ (64 - 1)) := by omega
      simp only [hne, if_false, hh1, hh2, or_self, decide_False, hloop, Bool.false_eq_true,
        false_and, c1, and_false, Prod.mk.injEq, and_true]
      omega
    · rw [bytes_Itoa_neg 64 (Or.inr rfl) n (by omega) (by omega)]
      unfold ParseInt ParseUint
      have c1 : ¬ (n.natAbs > 2 ^ (64 - 1)) := by omega
      simp only [List.cons_ne_nil, if_false, List.head?_cons, or_true, if_true, List.tail_cons,
        hne, hloop, decide_True, not_true_eq_false, false_and, c1, and_false, true_and,
        Prod.mk.injEq, and_true, reduceCtorEq]
      omega

theorem toInt_id (w : Nat) (n : Int) (hw : w = 32 ∨ w = 64)
    (hlo : -(2 : Int) ^ (w - 1) ≤ n) (hhi : n < (2 : Int) ^ (w - 1)) : toInt w n = n := by
  unfold toInt
  rcases hw with rfl | rfl <;> norm_num at hlo hhi ⊢ <;> omega

/-- Parsing what `Itoa` wrote gives the integer back, with the nil error. -/
theorem Atoi_Itoa (w : Nat) (n : Int) (hw : w = 32 ∨ w = 64)
    (hlo : -(2 : Int) ^ (w - 1) ≤ n) (hhi : n < (2 : Int) ^ (w - 1)) :
    Atoi w (Itoa w n) = (n, none) := by
  have h63 : -(2 : Int) ^ 63 ≤ n ∧ n < (2 : Int) ^ 63 := by
    rcases hw with rfl | rfl <;> norm_num at hlo hhi ⊢ <;> omega
  unfold Atoi
  simp only
  split
  · exact atoi_fast w hw n h63.1 h63.2
  · rw [ParseInt_Itoa w n hw hlo hhi, toInt_id w n hw hlo hhi]

/-! ## The environment reporter -/

theorem Sprintf_label_s (label : List Char) (h : '%' ∉ label) (v : String) :
    doPrintf (label ++ ['%', 's', '\n']) [Value.string v] = some (label ++ v.data ++ ['\n']) := by
  induction label with
  | nil => rfl
  | cons c cs ih =>
    have hc : c ≠ '%' := fun e => h (by rw [e]; exact List.mem_cons_self _ _)
    have := ih (fun hm => h (List.mem_cons_of_mem _ hm))
    rw [List.cons_append, doPrintf.eq_def]
    simp only [hc, if_false, this, Option.map_some']
    rfl

theorem Sprintf_label_d (label : List Char) (h : '%' ∉ label) (n : Int) :
    doPrintf (label ++ ['%', 'd', '\n']) [Value.int n] =
      some (label ++ fmtInteger (uint64 n) true ++ ['\n']) := by
  induction label with
  | nil => rfl
  | cons c cs ih =>
    have hc : c ≠ '%' := fun e => h (by rw [e]; exact List.mem_cons_self _ _)
    have := ih (fun hm => h (List.mem_cons_of_mem _ hm))
    rw [List.cons_append, doPrintf.eq_def]
    simp only [hc, if_false, this, Option.map_some']
    rfl

theorem HelloSystem_main_run (runtime : Runtime) :
    (HelloSystem.main runtime).run = some
      [ "=== Go Program Structure Demo ===\n",
        String.mk ("Go Version: ".data ++ runtime.Version.data ++ ['\n']),
        String.mk ("Operating System: ".data ++ runtime.GOOS.data ++ ['\n']),
        String.mk ("Architecture: ".data ++ runtime.GOARCH.data ++ ['\n']),
        String.mk ("CPU Count: ".data ++ fmtInteger (uint64 runtime.NumCPU) true ++ ['\n']) ] := by
  have h1 := Sprintf_label_s "Go Version: ".data (by decide) runtime.Version
  have h2 := Sprintf_label_s "Operating System: ".data (by decide) runtime.GOOS
  have h3 := Sprintf_label_s "Architecture: ".data (by decide) runtime.GOARCH
  have h4 := Sprintf_label_d "CPU Count: ".data (by decide) runtime.NumCPU
  have e1 : Sprintf "Go Version: %s\n" [Value.string runtime.Version] =
      some (String.mk ("Go Version: ".data ++ runtime.Version.data ++ ['\n'])) := by
    unfold Sprintf; exact congrArg (Option.map String.mk) h1
  have e2 : Sprintf "Operating System: %s\n" [Value.string runtime.GOOS] =
      some (String.mk ("Operating System: ".data ++ runtime.GOOS.data ++ ['\n'])) := by
    unfold Sprintf; exact congrArg (Option.map String.mk) h2
  have e3 : Sprintf "Architecture: %s\n" [Value.string runtime.GOARCH] =
      some (String.mk ("Architecture: ".data ++ runtime.GOARCH.data ++ ['\n'])) := by
    unfold Sprintf; exact congrArg (Option.map String.mk) h3
  have e4 : Sprintf "CPU Count: %d\n" [Value.int runtime.NumCPU] =
      some (String.mk ("CPU Count: ".data ++ fmtInteger (uint64 runtime.NumCPU) true ++ ['\n'])) := by
    unfold Sprintf; exact congrArg (Option.map String.mk) h4
  simp only [HelloSystem.main, Go.run, Printf, bind, Go.bind, e1, e2, e3, e4, Option.map_some',
    Println, pure]
  rfl

theorem linesAux_line (a : List Char) (h : '\n' ∉ a) : ∀ (rest cur : List Char),
    linesAux (a ++ '\n' :: rest) cur = (cur ++ a) :: linesAux rest [] := by
  induction a with
  | nil => intro rest cur; simp [linesAux]
  | cons c cs ih =>
    intro rest cur
    have hc : c ≠ '\n' := fun e => h (by rw [e]; exact List.mem_cons_self _ _)
    have := ih (fun hm => h (List.mem_cons_of_mem _ hm)) rest (cur ++ [c])
    show linesAux (c :: (cs ++ '\n' :: rest)) cur = _
    rw [linesAux, if_neg hc, this]
    simp

theorem linesAux_write (a : List Char) (h : '\n' ∉ a) (rest : List Char) :
    linesAux ((a ++ ['\n']) ++ rest) [] = a :: linesAux rest [] := by
  have := linesAux_line a h rest []
  simpa using this

theorem digitChar_ne_newline {d : Nat} (h : d < 10) : digitChar d ≠ '\n' := by
  interval_cases d <;> decide

theorem decimal_no_newline (n : Nat) : '\n' ∉ decimal n := by
  intro h
  unfold decimal at h
  obtain ⟨d, hd, e⟩ := List.mem_map.mp h
  exact digitChar_ne_newline (decDigits_lt n d hd) e

theorem decimal_ne_nil (n : Nat) : decimal n ≠ [] := by
  unfold decimal
  simp [decDigits_ne_nil]

theorem decimal_8 : decimal 8 = ['8'] := by
  rw [decimal_lt_ten (by norm_num)]; rfl

theorem decimal_4 : decimal 4 = ['4'] := by
  rw [decimal_lt_ten (by norm_num)]; rfl

theorem decimal_16 : decimal 16 = ['1', '6'] := by
  rw [decimal_step (by norm_num), decimal_lt_ten (by norm_num)]; rfl

/-! ## Integers through float64 and back -/

theorem bitLenAux_spec (fuel : Nat) : ∀ n, 0 < n → n ≤ fuel →
    2 ^ (bitLenAux fuel n - 1) ≤ n ∧ n < 2 ^ (bitLenAux fuel n) := by
  induction fuel with
  | zero => intro n h0 h; omega
  | succ k ih =>
    intro n h0 h
    unfold bitLenAux
    rw [if_neg (by omega)]
    by_cases h1 : n = 1
    · subst h1
      have : bitLenAux k (1 / 2) = 0 := by
        cases k <;> simp [bitLenAux]
      rw [this]; simp
    · obtain ⟨l, u⟩ := ih (n / 2) (by omega) (by omega)
      have hb : 0 < bitLenAux k (n / 2) := by
        by_contra hz
        have : bitLenAux k (n / 2) = 0 := by omega
        rw [this] at u
        simp at u
        omega
      have e : bitLenAux k (n / 2) + 1 - 1 = (bitLenAux k (n / 2) - 1) + 1 := by omega
      rw [e, pow_succ, pow_succ]
      omega

theorem bitLen_spec {n : Nat} (h : 0 < n) : 2 ^ (bitLen n - 1) ≤ n ∧ n < 2 ^ (bitLen n) :=
  bitLenAux_spec n n h (Nat.le_refl _)

theorem bitLen_pos {n : Nat} (h : 0 < n) : 0 < bitLen n := by
  by_contra hz
  have e : bitLen n = 0 := by omega
  have := (bitLen_spec h).2
  rw [e] at this
  simp at this
  omega

theorem bitLen_le_53 {n : Nat} (h : 0 < n) (hlt : n < 2 ^ 53) : bitLen n ≤ 53 := by
  by_contra hc
  have h1 := (bitLen_spec h).1
  have h2 : 2 ^ 53 ≤ 2 ^ (bitLen n - 1) := Nat.pow_le_pow_right (by decide) (by omega)
  omega

theorem bitLen_one : bitLen 1 = 1 := by decide

/-- Rounding a natural number below `2^53` to a `float64` loses nothing: the mantissa is the
number shifted left to 53 bits. -/
theorem roundRat_nat {m : Nat} (h0 : 0 < m) (hlt : m < 2 ^ 53) :
    roundRat m 1 = (m * 2 ^ (53 - bitLen m), (bitLen m : Int) - 53) := by
  obtain ⟨hl, hu⟩ := bitLen_spec h0
  have hb := bitLen_pos h0
  have hb53 := bitLen_le_53 h0 hlt
  have hne : m ≠ 0 := by omega
  have p1 : m * 2 ^ (54 - bitLen m) ≥ 2 ^ 53 := by
    calc 2 ^ 53 = 2 ^ (bitLen m - 1) * 2 ^ (54 - bitLen m) := by
          rw [← pow_add]; congr 1; omega
      _ ≤ m * 2 ^ (54 - bitLen m) := Nat.mul_le_mul_right _ hl
  have p2 : m * 2 ^ (53 - bitLen m) < 2 ^ 53 := by
    calc m * 2 ^ (53 - bitLen m) < 2 ^ bitLen m * 2 ^ (53 - bitLen m) :=
          Nat.mul_lt_mul_of_pos_right hu (by positivity)
      _ = 2 ^ 53 := by rw [← pow_add]; congr 1; omega
  unfold roundRat
  rw [if_neg hne, bitLen_one]
  simp only
  have e1 : ¬ (0 : Int) ≤ (bitLen m : Int) - ((1 : Nat) : Int) - 53 := by omega
  have t1 : ((-((bitLen m : Int) - ((1 : Nat) : Int) - 53)).toNat) = 54 - bitLen m := by omega
  have s1 : scale2 m 1 ((bitLen m : Int) - ((1 : Nat) : Int) - 53) =
      (m * 2 ^ (54 - bitLen m), 1) := by
    unfold scale2; rw [if_neg e1, t1]
  rw [s1]
  simp only [Nat.div_one, p1, if_true]
  have e2 : ¬ ((bitLen m : Int) - ((1 : Nat) : Int) - 53 + 1 < -1074) := by omega
  rw [if_neg e2]
  have e3 : (bitLen m : Int) - ((1 : Nat) : Int) - 53 + 1 = (bitLen m : Int) - 53 := by omega
  rw [e3]
  have s2 : scale2 m 1 ((bitLen m : Int) - 53) = (m * 2 ^ (53 - bitLen m), 1) := by
    unfold scale2
    by_cases hz : (0 : Int) ≤ (bitLen m : Int) - 53
    · have hb' : bitLen m = 53 := by omega
      rw [if_pos hz, hb']; simp
    · have t2 : ((-((bitLen m : Int) - 53)).toNat) = 53 - bitLen m := by omega
      rw [if_neg hz, t2]
  rw [s2]
  have r1 : roundHalfEven (m * 2 ^ (53 - bitLen m)) 1 = m * 2 ^ (53 - bitLen m) := by
    unfold roundHalfEven
    simp only [Nat.mod_one, Nat.div_one]
    rw [if_neg (by omega)]
  rw [r1, if_neg (by omega)]

/-- Converting an integer of magnitude below `2^53` to `float64` and back to `int` gives the
integer back, on a platform whose `int` holds it. -/
theorem float64_roundtrip (w : Nat) (n : Int) (hmag : n.natAbs < 2 ^ 53)
    (hlo : -(2 : Int) ^ (w - 1) ≤ n) (hhi : n < (2 : Int) ^ (w - 1)) :
    intOfFloat64 w (float64OfInt n) = some n := by
  unfold intOfFloat64 float64OfInt
  by_cases hz : n = 0
  · subst hz
    have hp : (0 : Int) < (2 : Int) ^ (w - 1) := by positivity
    simp [roundRat, scale2, hp]
  · have h0 : 0 < n.natAbs := by omega
    have hb53 := bitLen_le_53 h0 hmag
    rw [roundRat_nat h0 hmag]
    simp only
    have e1 : (0 : Int) ≤ -((bitLen n.natAbs : Int) - 53) := by omega
    have t1 : (-((bitLen n.natAbs : Int) - 53)).toNat = 53 - bitLen n.natAbs := by omega
    have s1 : scale2 (n.natAbs * 2 ^ (53 - bitLen n.natAbs)) 1
        (-((bitLen n.natAbs : Int) - 53)) =
        (n.natAbs * 2 ^ (53 - bitLen n.natAbs), 1 * 2 ^ (53 - bitLen n.natAbs)) := by
      unfold scale2; rw [if_pos e1, t1]
    rw [s1]
    simp only [Nat.one_mul]
    rw [Nat.mul_div_cancel _ (by positivity)]
    by_cases hneg : n < 0
    · have ev : -((n.natAbs : Nat) : Int) = n := by omega
      simp only [hneg, decide_True, if_true, ev]
      rw [if_pos ⟨hlo, hhi⟩]
    · have ev : ((n.natAbs : Nat) : Int) = n := by omega
      simp only [hneg, decide_False, Bool.false_eq_true, if_false, ev]
      rw [if_pos ⟨hlo, hhi⟩]

/-! ## The claims -/

/-- C1: for every `int` value `n` (on a 32-bit and on a 64-bit platform) `strconv.Atoi` applied
to the string `strconv.Itoa(n)` returns `n` and the nil error, so the error `main` discards is
never non-nil. For the fixed age 30 the string is "30", the value parsed back is 30, and the
string-conversion step prints exactly these two. -/
theorem stringConversion_roundtrip (w : Nat) (n : Int) (hw : w = 32 ∨ w = 64)
    (hlo : -(2 : Int) ^ (w - 1) ≤ n) (hhi : n < (2 : Int) ^ (w - 1)) :
    Atoi w (Itoa w n) = (n, none) ∧
    Itoa w 30 = "30" ∧
    Atoi w (Itoa w 30) = (30, none) ∧
    (DataCollector.main w).run.map (sectionOf "\n8. Stirng Conversions:\n") = some
      [ "age as string: '30' (type: string)\n",
        "parsed back to int: 30 (type: int)\n" ] := by
  refine ⟨Atoi_Itoa w n hw hlo hhi, ?_, ?_, ?_⟩
  · rcases hw with rfl | rfl <;> decide
  · rcases hw with rfl | rfl <;> decide
  · rcases hw with rfl | rfl <;> decide!

/-- C1, at the least 64-bit integer. -/
theorem stringConversion_roundtrip_witness :
    (64 = 32 ∨ 64 = 64) ∧
    -(2 : Int) ^ (64 - 1) ≤ -9223372036854775808 ∧
    (-9223372036854775808 : Int) < (2 : Int) ^ (64 - 1) ∧
    Atoi 64 (Itoa 64 (-9223372036854775808)) = (-9223372036854775808, none) :=
  ⟨Or.inr rfl, by norm_num, by norm_num,
    (stringConversion_roundtrip 64 (-9223372036854775808) (Or.inr rfl)
      (by norm_num) (by norm_num)).1⟩

/-- C2 as stated fails: after the round trip the numeric-conversion step does not print 30. -/
theorem numericConversion_not_30 :
    (DataCollector.main 64).run.map
        (fun out => (sectionOf "\n7. Numeric Type Conversions:\n" out).getLast?) ≠
      some (some "backToInt: 30 (type: int)\n") := by
  decide!

/-- C2, amended: the numeric-conversion step converts the fixed value 42 (the variable
`intValue`, not the age) to a `float64` and back to an `int`; it prints 42 at each stage and
the integer after the round trip is exactly 42. -/
theorem numericConversion_prints_42 (w : Nat) (hw : w = 32 ∨ w = 64) :
    (DataCollector.main w).run.map (sectionOf "\n7. Numeric Type Conversions:\n") = some
      [ "intValue: 42 (type: int)\n",
        "floatValue: 42 (type: float64)\n",
        "backToInt: 42 (type: int)\n" ] ∧
    (Value.int 42).toFloat64.bind (Value.toInt w) = some (Value.int 42) := by
  rcases hw with rfl | rfl <;> exact ⟨by decide!, by decide!⟩

/-- C2, amended, on a 32-bit platform. -/
theorem numericConversion_prints_42_witness :
    (32 = 32 ∨ 32 = 64) ∧
    (DataCollector.main 32).run.map (sectionOf "\n7. Numeric Type Conversions:\n") = some
      [ "intValue: 42 (type: int)\n",
        "floatValue: 42 (type: float64)\n",
        "backToInt: 42 (type: int)\n" ] :=
  ⟨Or.inl rfl, (numericConversion_prints_42 32 (Or.inl rfl)).1⟩

/-- C3: what `main` of data-collector.go writes on a 64-bit platform, write by write. The
section headers are the eight numbered 2 to 9; the lines of demonstration 1 come right after
the title line, with no header of their own; the confirmation line is last. -/
theorem main_output_64 :
    (DataCollector.main 64).run = some
      [ "=== Go Variables and Types Demo ===\n",
        "name: Alice (type: string)\n",
        "age: 30 (type: int)\n",
        "temperature: 98.6 (type: float64)\n",
        "isActive: true (type: bool)\n",
        "\n2. Type Inference:\n",
        "city: New York (type: string)\n",
        "score: 95.5 (type: float64)\n",
        "count: 100 (type: int)\n",
        "\n3. Short Declaration:\n",
        "country: USA (type: string)\n",
        "rating: 4.5 (type: float64)\n",
        "total: 250 (type: int)\n",
        "\n4. Zero Values:\n",
        "emptyString: '' (type: string)\n",
        "zeroInt: 0 (type: int)\n",
        "zeroFloat: 0 (type: float64)\n",
        "falseBool: false (type: bool)\n",
        "\n5. Constants:\n",
        "pi: 3.14159 (type: float64)\n",
        "maxRetries: 3 (type: int)\n",
        "greeting: Welcome (type: string)\n",
        "\n6. Type Sizes:\n",
        "size of int: 8 bytes\n",
        "size of float64: 8 bytes\n",
        "size of bool: 1 bytes\n",
        "size of string: 16 bytes\n",
        "\n7. Numeric Type Conversions:\n",
        "intValue: 42 (type: int)\n",
        "floatValue: 42 (type: float64)\n",
        "backToInt: 42 (type: int)\n",
        "\n8. Stirng Conversions:\n",
        "age as string: '30' (type: string)\n",
        "parsed back to int: 30 (type: int)\n",
        "\n9. Variable Scope:\n",
        "Inside function - localVar: I'm local to this function\n",
        "Main function continues after demonstrateScope()\n" ] ∧
    (DataCollector.main 64).run.map (List.filter isHeader) = some
      [ "\n2. Type Inference:\n",
        "\n3. Short Declaration:\n",
        "\n4. Zero Values:\n",
        "\n5. Constants:\n",
        "\n6. Type Sizes:\n",
        "\n7. Numeric Type Conversions:\n",
        "\n8. Stirng Conversions:\n",
        "\n9. Variable Scope:\n" ] ∧
    (DataCollector.main 64).run.map (fun out => out.getLast?) =
      some (some "Main function continues after demonstrateScope()\n") := by
  decide!

/-- C4: in the zero-value step the string prints as empty (nothing between the quotes), the
`int` as 0, the `float64` as 0 and the `bool` as false, with the type labels string, int,
float64 and bool. -/
theorem zeroValues_section (w : Nat) (hw : w = 32 ∨ w = 64) :
    (DataCollector.main w).run.map (sectionOf "\n4. Zero Values:\n") = some
      [ "emptyString: '' (type: string)\n",
        "zeroInt: 0 (type: int)\n",
        "zeroFloat: 0 (type: float64)\n",
        "falseBool: false (type: bool)\n" ] := by
  rcases hw with rfl | rfl <;> decide!

/-- C4, on a 64-bit platform. -/
theorem zeroValues_section_witness :
    (64 = 32 ∨ 64 = 64) ∧
    (DataCollector.main 64).run.map (sectionOf "\n4. Zero Values:\n") = some
      [ "emptyString: '' (type: string)\n",
        "zeroInt: 0 (type: int)\n",
        "zeroFloat: 0 (type: float64)\n",
        "falseBool: false (type: bool)\n" ] :=
  ⟨Or.inr rfl, zeroValues_section 64 (Or.inr rfl)⟩

/-- C5 as stated fails: the type-inference step does not print four lines. -/
theorem inference_section_not_four :
    (DataCollector.main 64).run.map
        (fun out => (sectionOf "\n2. Type Inference:\n" out).length) ≠ some 4 := by
  decide!

/-- C5, amended: the type-inference step and the short-declaration step each declare and print
three of the four categories of step 1, a string, a 64-bit float and an integer (no boolean),
so each of the two steps prints three "name: value (type: T)" lines. -/
theorem inference_sections_three_lines (w : Nat) (hw : w = 32 ∨ w = 64) :
    (DataCollector.main w).run.map (sectionOf "\n2. Type Inference:\n") = some
      [ "city: New York (type: string)\n",
        "score: 95.5 (type: float64)\n",
        "count: 100 (type: int)\n" ] ∧
    (DataCollector.main w).run.map (sectionOf "\n3. Short Declaration:\n") = some
      [ "country: USA (type: string)\n",
        "rating: 4.5 (type: float64)\n",
        "total: 250 (type: int)\n" ] := by
  rcases hw with rfl | rfl <;> exact ⟨by decide!, by decide!⟩

/-- C5, amended, on a 64-bit platform. -/
theorem inference_sections_three_lines_witness :
    (64 = 32 ∨ 64 = 64) ∧
    (DataCollector.main 64).run.map (sectionOf "\n2. Type Inference:\n") = some
      [ "city: New York (type: string)\n",
        "score: 95.5 (type: float64)\n",
        "count: 100 (type: int)\n" ] ∧
    (DataCollector.main 64).run.map (sectionOf "\n3. Short Declaration:\n") = some
      [ "country: USA (type: string)\n",
        "rating: 4.5 (type: float64)\n",
        "total: 250 (type: int)\n" ] :=
  ⟨Or.inr rfl, inference_sections_three_lines 64 (Or.inr rfl)⟩

/-- C6: for each of the ten variables of steps 1 to 3 the printed type label is the type of
the printed value: the strings print "string", the integers "int", the fractional values
98.6, 95.5 and 4.5 "float64" (declared or inferred), the boolean "bool". -/
theorem typeLabels_steps_1_to_3 (w : Nat) (hw : w = 32 ∨ w = 64) :
    (DataCollector.main w).run.map
        (fun out =>
          sectionOf "=== Go Variables and Types Demo ===\n" out ++
          sectionOf "\n2. Type Inference:\n" out ++
          sectionOf "\n3. Short Declaration:\n" out) = some
      [ "name: Alice (type: string)\n",
        "age: 30 (type: int)\n",
        "temperature: 98.6 (type: float64)\n",
        "isActive: true (type: bool)\n",
        "city: New York (type: string)\n",
        "score: 95.5 (type: float64)\n",
        "count: 100 (type: int)\n",
        "country: USA (type: string)\n",
        "rating: 4.5 (type: float64)\n",
        "total: 250 (type: int)\n" ] ∧
    (Const.default w (Const.float 955 (-1))).map Value.type = some GoType.float64 ∧
    (Const.default w (Const.float 45 (-1))).map Value.type = some GoType.float64 ∧
    (Const.convert w GoType.float64 (Const.float 986 (-1))).map Value.type =
      some GoType.float64 := by
  rcases hw with rfl | rfl <;> exact ⟨by decide!, by decide!, by decide!, by decide!⟩

/-- C6, on a 32-bit platform. -/
theorem typeLabels_steps_1_to_3_witness :
    (32 = 32 ∨ 32 = 64) ∧
    (Const.default 32 (Const.float 955 (-1))).map Value.type = some GoType.float64 ∧
    (Const.default 32 (Const.float 45 (-1))).map Value.type = some GoType.float64 :=
  ⟨Or.inl rfl, (typeLabels_steps_1_to_3 32 (Or.inl rfl)).2.1,
    (typeLabels_steps_1_to_3 32 (Or.inl rfl)).2.2.1⟩

/-- C7: for every version string, OS identifier and architecture identifier without a line
break and every positive CPU count, the output of the environment reporter is the title line
followed by exactly four labelled lines, in the order "Go Version: ", "Operating System: ",
"Architecture: ", "CPU Count: ", one fact per line; no line is empty; the value on the
CPU Count line is the decimal numeral of the CPU count, which reads back as that number. -/
theorem HelloSystem_main_lines (runtime : Runtime)
    (hv : '\n' ∉ runtime.Version.data) (ho : '\n' ∉ runtime.GOOS.data)
    (ha : '\n' ∉ runtime.GOARCH.data)
    (hn : 0 < runtime.NumCPU) (hmax : runtime.NumCPU < (2 : Int) ^ 63) :
    (HelloSystem.main runtime).run.map Stdout.lines = some
      [ "=== Go Program Structure Demo ===".data,
        "Go Version: ".data ++ runtime.Version.data,
        "Operating System: ".data ++ runtime.GOOS.data,
        "Architecture: ".data ++ runtime.GOARCH.data,
        "CPU Count: ".data ++ decimal runtime.NumCPU.toNat ] ∧
    (∀ x ∈ ((HelloSystem.main runtime).run.map Stdout.lines).getD [], x ≠ []) ∧
    readDigits (decDigits runtime.NumCPU.toNat) 0 = runtime.NumCPU.toNat ∧
    Atoi 64 (String.mk (decimal runtime.NumCPU.toNat)) = (runtime.NumCPU, none) := by
  have hfmt : fmtInteger (uint64 runtime.NumCPU) true = decimal runtime.NumCPU.toNat := by
    rw [fmtInteger_signed _ (by omega) hmax, decimalInt, if_neg (by omega), List.nil_append]
    congr 1; omega
  have hlines : (HelloSystem.main runtime).run.map Stdout.lines = some
      [ "=== Go Program Structure Demo ===".data,
        "Go Version: ".data ++ runtime.Version.data,
        "Operating System: ".data ++ runtime.GOOS.data,
        "Architecture: ".data ++ runtime.GOARCH.data,
        "CPU Count: ".data ++ decimal runtime.NumCPU.toNat ] := by
    rw [HelloSystem_main_run, hfmt, Option.map_some']
    have n0 : '\n' ∉ "=== Go Program Structure Demo ===".data := by decide
    have n1 : '\n' ∉ "Go Version: ".data ++ runtime.Version.data := by
      rw [List.mem_append]; exact fun h => h.elim (by decide) hv
    have n2 : '\n' ∉ "Operating System: ".data ++ runtime.GOOS.data := by
      rw [List.mem_append]; exact fun h => h.elim (by decide) ho
    have n3 : '\n' ∉ "Architecture: ".data ++ runtime.GOARCH.data := by
      rw [List.mem_append]; exact fun h => h.elim (by decide) ha
    have n4 : '\n' ∉ "CPU Count: ".data ++ decimal runtime.NumCPU.toNat := by
      rw [List.mem_append]; exact fun h => h.elim (by decide) (decimal_no_newline _)
    unfold Stdout.lines
    show some (linesAux
      (("=== Go Program Structure Demo ===".data ++ ['\n']) ++
        ((("Go Version: ".data ++ runtime.Version.data) ++ ['\n']) ++
          ((("Operating System: ".data ++ runtime.GOOS.data) ++ ['\n']) ++
            ((("Architecture: ".data ++ runtime.GOARCH.data) ++ ['\n']) ++
              ((("CPU Count: ".data ++ decimal runtime.NumCPU.toNat) ++ ['\n']) ++ []))))) []) = _
    rw [linesAux_write _ n0, linesAux_write _ n1, linesAux_write _ n2, linesAux_write _ n3,
      linesAux_write _ n4]
    rfl
  refine ⟨hlines, ?_, readDigits_decDigits _, ?_⟩
  · intro x hx
    rw [hlines] at hx
    simp only [Option.getD_some, List.mem_cons, List.mem_singleton, List.not_mem_nil,
      or_false] at hx
    rcases hx with rfl | rfl | rfl | rfl | rfl <;> simp
  · have := Atoi_Itoa 64 runtime.NumCPU (Or.inr rfl) (by norm_num; omega) (by norm_num; omega)
    rw [Itoa_eq 64 (Or.inr rfl) _ (by omega) hmax, decimalInt, if_neg (by omega),
      List.nil_append] at this
    have e : runtime.NumCPU.natAbs = runtime.NumCPU.toNat := by omega
    rw [e] at this
    exact this

/-- C7, for Go 1.21 on an eight-core linux/amd64 machine. -/
theorem HelloSystem_main_lines_witness :
    '\n' ∉ "go1.21.0".data ∧ '\n' ∉ "linux".data ∧ '\n' ∉ "amd64".data ∧
    (0 : Int) < 8 ∧ (8 : Int) < (2 : Int) ^ 63 ∧
    (HelloSystem.main ⟨"go1.21.0", "linux", "amd64", 8⟩).run.map Stdout.lines = some
      [ "=== Go Program Structure Demo ===".data,
        "Go Version: ".data ++ "go1.21.0".data,
        "Operating System: ".data ++ "linux".data,
        "Architecture: ".data ++ "amd64".data,
        "CPU Count: ".data ++ decimal (8 : Int).toNat ] :=
  ⟨by decide, by decide, by decide, by norm_num, by norm_num,
    (HelloSystem_main_lines ⟨"go1.21.0", "linux", "amd64", 8⟩ (by decide) (by decide)
      (by decide) (by norm_num) (by norm_num)).1⟩

/-- C8: `demonstrateScope` writes exactly one line, the one with its local value, and hands
nothing else back; in `main` the confirmation line comes right after that line, and the
local value occurs in no other write of `main`. -/
theorem scope_section (w : Nat) (hw : w = 32 ∨ w = 64) (out : Stdout) :
    (DataCollector.demonstrateScope w out).run =
      some (out ++ ["Inside function - localVar: I'm local to this function\n"]) ∧
    (DataCollector.main w).run.map (sectionOf "\n9. Variable Scope:\n") = some
      [ "Inside function - localVar: I'm local to this function\n",
        "Main function continues after demonstrateScope()\n" ] ∧
    (DataCollector.main w).run.map (List.filter (occursIn "I'm local to this function")) = some
      [ "Inside function - localVar: I'm local to this function\n" ] := by
  refine ⟨?_, ?_, ?_⟩
  · have e : Sprintf "Inside function - localVar: %v\n"
        [Value.string "I'm local to this function"] =
        some "Inside function - localVar: I'm local to this function\n" := by decide
    simp only [DataCollector.demonstrateScope, Go.run, bind, Go.bind, Const.default,
      Const.defaultType, Const.convert, Printf, e, Option.map_some', pure]
  · rcases hw with rfl | rfl <;> decide!
  · rcases hw with rfl | rfl <;> decide!

/-- C8, on a 64-bit platform, after one earlier write. -/
theorem scope_section_witness :
    (64 = 32 ∨ 64 = 64) ∧
    (DataCollector.demonstrateScope 64 ["\n9. Variable Scope:\n"]).run =
      some (["\n9. Variable Scope:\n"] ++
        ["Inside function - localVar: I'm local to this function\n"]) :=
  ⟨Or.inr rfl, (scope_section 64 (Or.inr rfl) ["\n9. Variable Scope:\n"]).1⟩

/-- C9: in the type-size step the `float64` is printed with size 8 and the `bool` with size 1
on every platform, the `int` with `w/8` and the string with `2*w/8` for the word size `w`
(8 and 16 for `w = 64`, 4 and 8 for `w = 32`), in the order int, float64, bool, string. -/
theorem typeSizes_section (w : Nat) (hw : w = 32 ∨ w = 64) :
    (DataCollector.main w).run.map (sectionOf "\n6. Type Sizes:\n") = some
      [ String.mk ("size of int: ".data ++ decimal (w / 8) ++ " bytes\n".data),
        "size of float64: 8 bytes\n",
        "size of bool: 1 bytes\n",
        String.mk ("size of string: ".data ++ decimal (2 * w / 8) ++ " bytes\n".data) ] ∧
    (w = 64 → (DataCollector.main w).run.map (sectionOf "\n6. Type Sizes:\n") = some
      [ "size of int: 8 bytes\n", "size of float64: 8 bytes\n",
        "size of bool: 1 bytes\n", "size of string: 16 bytes\n" ]) ∧
    (w = 32 → (DataCollector.main w).run.map (sectionOf "\n6. Type Sizes:\n") = some
      [ "size of int: 4 bytes\n", "size of float64: 8 bytes\n",
        "size of bool: 1 bytes\n", "size of string: 8 bytes\n" ]) := by
  rcases hw with rfl | rfl
  · refine ⟨?_, fun h => absurd h (by decide), fun _ => by decide!⟩
    rw [show 32 / 8 = 4 from rfl, show 2 * 32 / 8 = 8 from rfl, decimal_4, decimal_8]
    decide!
  · refine ⟨?_, fun _ => by decide!, fun h => absurd h (by decide)⟩
    rw [show 64 / 8 = 8 from rfl, show 2 * 64 / 8 = 16 from rfl, decimal_8, decimal_16]
    decide!

/-- C9, on a 32-bit platform. -/
theorem typeSizes_section_witness :
    (32 = 32 ∨ 32 = 64) ∧
    (DataCollector.main 32).run.map (sectionOf "\n6. Type Sizes:\n") = some
      [ "size of int: 4 bytes\n", "size of float64: 8 bytes\n",
        "size of bool: 1 bytes\n", "size of string: 8 bytes\n" ] :=
  ⟨Or.inl rfl, (typeSizes_section 32 (Or.inl rfl)).2.2 rfl⟩

/-- C10: the constants step prints `pi` as 3.14159 with type float64, the untyped integer
constant `maxRetries` as 3 with type int, and `greeting` as Welcome with type string. -/
theorem constants_section (w : Nat) (hw : w = 32 ∨ w = 64) :
    (DataCollector.main w).run.map (sectionOf "\n5. Constants:\n") = some
      [ "pi: 3.14159 (type: float64)\n",
        "maxRetries: 3 (type: int)\n",
        "greeting: Welcome (type: string)\n" ] ∧
    (Const.int 3).defaultType = GoType.int := by
  rcases hw with rfl | rfl <;> exact ⟨by decide!, rfl⟩

/-- C10, on a 64-bit platform. -/
theorem constants_section_witness :
    (64 = 32 ∨ 64 = 64) ∧
    (DataCollector.main 64).run.map (sectionOf "\n5. Constants:\n") = some
      [ "pi: 3.14159 (type: float64)\n",
        "maxRetries: 3 (type: int)\n",
        "greeting: Welcome (type: string)\n" ] :=
  ⟨Or.inr rfl, (constants_section 64 (Or.inr rfl)).1⟩

end GoDemo
